import Mathlib

/-!
Shallow embedding of the copy-trading core of the polymarket-dashboard
repository: the change detector and orchestrator of
`copy_trading_engine.py` and the pricing engine of `smart_pricing.py`.

Modelling conventions:
* Python floats are modelled as exact rationals (`ℚ`).
* Timestamps are rational numbers of hours since an arbitrary epoch, so
  `(now - created_at).total_seconds() / 3600` becomes `now - created_at`.
* Python dicts keyed by strings are association lists
  `List (String × Position)`; dict-key uniqueness is carried as a
  `Nodup` hypothesis where a theorem needs it.
* Database side effects are explicit state passing: the
  `pending_copy_orders` table is a `List PendingOrder`, and calls to the
  exchange gateway are recorded as an `Action` trace.
* `requests`/HTTP failures are an `Except` value at the call boundary.
-/

namespace CopyTrading

/-- Order direction: the `action` field of a change event and the
`order_side` column of `pending_copy_orders`. -/
inductive OrderSide where
  | BUY
  | SELL
  deriving DecidableEq, Repr

/-- The `type` field of a change event produced by
`_detect_position_changes`. -/
inductive ChangeType where
  | NEW_POSITION
  | SIZE_INCREASE
  | SIZE_DECREASE
  | POSITION_CLOSED
  deriving DecidableEq, Repr

/-- The `order_type` field of a pricing decision. -/
inductive OrderType where
  | LIMIT
  | MARKET
  deriving DecidableEq, Repr

/-- The `urgency` field of a pricing decision. -/
inductive Urgency where
  | low
  | medium
  | high
  | critical
  deriving DecidableEq, Repr

/-- The `status` column of `pending_copy_orders`. The SQL string
`'partial'` is modelled by the constructor `partFilled` (the literal
word is avoided as a Lean keyword clash). -/
inductive OrderStatus where
  | pending
  | partFilled
  | filled
  | cancelled
  | failed
  deriving DecidableEq, Repr

/-- `status IN ('pending', 'partial')`: the non-terminal statuses. -/
def OrderStatus.isOpen : OrderStatus → Bool
  | .pending => true
  | .partFilled => true
  | _ => false

/-- One position record, as built by `_fetch_trader_positions` /
`_get_last_snapshot` (the unused `value` field is dropped). -/
structure Position where
  market_id : String
  market_name : String
  token_id : String
  side : String
  size : ℚ
  avg_price : ℚ
  deriving DecidableEq, Repr

/-- A position snapshot: the Python dict keyed by
`f"{market_id}_{token_id}"`, as an association list. -/
abbrev Snapshot := List (String × Position)

/-- Dict lookup on an association list (first matching key wins, as in
a Python dict where keys are unique). -/
def lookupKey : Snapshot → String → Option Position
  | [], _ => none
  | kp :: rest, key => if kp.1 = key then some kp.2 else lookupKey rest key

/-- A change event dict produced by `_detect_position_changes`.  `pos`
holds the spread-in position fields (`**new_pos` or `**old_pos`, with
`avg_price` already overridden where the code overrides it); `key` is
the snapshot dict key the event originated from. -/
structure ChangeEvent where
  ctype : ChangeType
  action : OrderSide
  key : String
  pos : Position
  size_change : ℚ
  deriving DecidableEq, Repr

/-- Body of the first loop of `_detect_position_changes`: the events
contributed by one `(key, new_pos)` entry of the new snapshot. -/
def changesForKey (old : Snapshot) (key : String) (newPos : Position) :
    List ChangeEvent :=
  match lookupKey old key with
  | none =>
      [⟨.NEW_POSITION, .BUY, key, newPos, newPos.size⟩]
  | some oldPos =>
      if newPos.size > oldPos.size then
        [⟨.SIZE_INCREASE, .BUY, key, newPos, newPos.size - oldPos.size⟩]
      else if newPos.size < oldPos.size then
        [⟨.SIZE_DECREASE, .SELL, key,
          { newPos with avg_price := oldPos.avg_price },
          oldPos.size - newPos.size⟩]
      else []

/-- Second loop of `_detect_position_changes`: closed positions (keys
present in the old snapshot and absent from the new one). -/
def closedChanges (old newSnap : Snapshot) : List ChangeEvent :=
  old.filterMap fun kp =>
    if lookupKey newSnap kp.1 = none then
      some ⟨.POSITION_CLOSED, .SELL, kp.1, kp.2, kp.2.size⟩
    else none

/-- `CopyTradingEngine._detect_position_changes`. -/
def detect_position_changes (old newSnap : Snapshot) : List ChangeEvent :=
  (newSnap.flatMap fun kp => changesForKey old kp.1 kp.2) ++
    closedChanges old newSnap

/-- A change event as the spec words it (§3 ChangeEvent / §4.1 rules):
kind, implied order side, positive size delta, reference price. -/
structure RefChange where
  kind : ChangeType
  implied_order_side : OrderSide
  size_delta : ℚ
  reference_price : ℚ
  deriving DecidableEq, Repr

/-- Reference per-key rule of spec §4.1, written from the spec's words
(for the refinement comparison in claim C2): given the old and new
entry at one key, the event that key must contribute, if any. -/
def refEvent : Option Position → Option Position → Option RefChange
  | none, none => none
  | none, some n => some ⟨.NEW_POSITION, .BUY, n.size, n.avg_price⟩
  | some o, none => some ⟨.POSITION_CLOSED, .SELL, o.size, o.avg_price⟩
  | some o, some n =>
      if n.size > o.size then
        some ⟨.SIZE_INCREASE, .BUY, n.size - o.size, n.avg_price⟩
      else if n.size < o.size then
        some ⟨.SIZE_DECREASE, .SELL, o.size - n.size, o.avg_price⟩
      else none

/-- Projection of a code-level change event onto the spec's fields:
the reference price of an event is the `avg_price` it carries. -/
def ChangeEvent.toRef (e : ChangeEvent) : RefChange :=
  ⟨e.ctype, e.action, e.size_change, e.pos.avg_price⟩

/-! ## Pricing engine (`smart_pricing.py`) -/

/-- The `market_data` dict consumed by `calculate_optimal_price`.
`spread_percentage` is optional because the code reads it with
`market_data.get('spread_percentage', (spread / target_price) * 100)`. -/
structure MarketData where
  best_bid : ℚ
  best_ask : ℚ
  spread_percentage : Option ℚ
  deriving DecidableEq, Repr

/-- Python's `round(x, 8)`.  Modelled with Mathlib's `round` (half away
from zero on `.5` ties) instead of Python's banker's rounding; the two
agree except on exact ties at half of `1e-8`, which no input in this
development produces. -/
def round8 (x : ℚ) : ℚ := (round (x * 100000000) : ℤ) / 100000000

/-- Result dict of a pricing decision (the `reasoning` log string is
omitted). -/
structure PricingResult where
  price : Option ℚ
  order_type : OrderType
  urgency : Urgency
  deriving DecidableEq, Repr

/-- `SmartPricingEngine._tight_spread_strategy` (spread < 0.5%).
The `spread_pct` parameter is used only in log strings and is dropped. -/
def tight_spread_strategy (target bid ask mid spread : ℚ)
    (side : OrderSide) (hoursElapsed : ℚ) : PricingResult :=
  if hoursElapsed < 6 then
    ⟨some (round8 target), .LIMIT, .low⟩
  else if hoursElapsed < 12 then
    ⟨some (round8 (if side = .BUY then target + spread * (1/10)
                   else target - spread * (1/10))), .LIMIT, .low⟩
  else if hoursElapsed < 24 then
    ⟨some (round8 (if side = .BUY then min mid (target + spread * (3/10))
                   else max mid (target - spread * (3/10)))), .LIMIT, .medium⟩
  else if hoursElapsed < 36 then
    ⟨some (round8 (if side = .BUY then ask else bid)), .LIMIT, .high⟩
  else
    ⟨none, .MARKET, .critical⟩

/-- `SmartPricingEngine._normal_spread_strategy` (0.5% ≤ spread < 2%). -/
def normal_spread_strategy (target bid ask mid spread : ℚ)
    (side : OrderSide) (hoursElapsed : ℚ) : PricingResult :=
  if hoursElapsed < 6 then
    ⟨some (round8 target), .LIMIT, .low⟩
  else if hoursElapsed < 12 then
    ⟨some (round8 (if side = .BUY then target + spread * (2/10)
                   else target - spread * (2/10))), .LIMIT, .medium⟩
  else if hoursElapsed < 24 then
    ⟨some (round8 (if side = .BUY then mid + spread * (1/10)
                   else mid - spread * (1/10))), .LIMIT, .high⟩
  else if hoursElapsed < 36 then
    ⟨some (round8 (if side = .BUY then ask + spread * (5/100)
                   else bid - spread * (5/100))), .LIMIT, .high⟩
  else
    ⟨none, .MARKET, .critical⟩

/-- `SmartPricingEngine._wide_spread_strategy` (spread ≥ 2%). -/
def wide_spread_strategy (target bid ask mid spread : ℚ)
    (side : OrderSide) (hoursElapsed : ℚ) : PricingResult :=
  if hoursElapsed < 2 then
    ⟨some (round8 target), .LIMIT, .medium⟩
  else if hoursElapsed < 6 then
    ⟨some (round8 (if side = .BUY then target + spread * (15/100)
                   else target - spread * (15/100))), .LIMIT, .medium⟩
  else if hoursElapsed < 12 then
    ⟨some (round8 mid), .LIMIT, .high⟩
  else if hoursElapsed < 24 then
    ⟨some (round8 (if side = .BUY then ask + spread * (1/10)
                   else bid - spread * (1/10))), .LIMIT, .high⟩
  else
    ⟨none, .MARKET, .critical⟩

/-- The spread percentage `calculate_optimal_price` computes:
`market_data.get('spread_percentage', (spread / target_price) * 100)`. -/
def spreadPctOf (md : MarketData) (target : ℚ) : ℚ :=
  md.spread_percentage.getD ((md.best_ask - md.best_bid) / target * 100)

/-- The `result` dict `calculate_optimal_price` computes before its
logging epilogue: regime dispatch on the spread percentage
(tight < 0.5, normal < 2, else wide), then the regime strategy.  The
`liquidity`/`spread_pct`/`hours_elapsed` metadata added to the result
dict is not modelled. -/
def pricing_decision (target : ℚ) (side : OrderSide)
    (md : MarketData) (hoursElapsed : ℚ) : PricingResult :=
  let bid := md.best_bid
  let ask := md.best_ask
  let spread := ask - bid
  let spreadPct := spreadPctOf md target
  let mid := (bid + ask) / 2
  if spreadPct < 1/2 then
    tight_spread_strategy target bid ask mid spread side hoursElapsed
  else if spreadPct < 2 then
    normal_spread_strategy target bid ask mid spread side hoursElapsed
  else
    wide_spread_strategy target bid ask mid spread side hoursElapsed

/-- `SmartPricingEngine.calculate_optimal_price`: the dispatch above
followed by the function's logging epilogue.  That epilogue's f-string
formats `result['price']` with `:.4f`; when the decision is a market
order the price is `None` and the format raises `TypeError` before the
`return`, so the function raises instead of returning the market-order
result — modelled as `Except.error`.  On limit decisions (price a
number) the format succeeds and the result is returned. -/
def calculate_optimal_price (target : ℚ) (side : OrderSide)
    (md : MarketData) (hoursElapsed : ℚ) : Except Unit PricingResult :=
  let result := pricing_decision target side md hoursElapsed
  match result.price with
  | none => .error ()
  | some _ => .ok result

/-- The hours ceiling past which a regime's strategy computes the
market-order decision (upon which `calculate_optimal_price` raises):
36h for the tight and normal regimes, 24h for the wide regime. -/
def marketCeiling (md : MarketData) (target : ℚ) : ℚ :=
  if spreadPctOf md target < 2 then 36 else 24

/-- `SmartPricingEngine.should_adjust_price`.  `now` replaces
`datetime.utcnow()`; datetimes are rational hours. -/
def should_adjust_price (now created_at : ℚ) (last_adjustment : Option ℚ)
    (adjustment_count : ℕ) : Bool :=
  let hoursElapsed := now - created_at
  if hoursElapsed < 6 then false
  else if adjustment_count = 0 ∧ 6 ≤ hoursElapsed then true
  else if (match last_adjustment with
           | some t => decide (now - t < 3)
           | none => false) then false
  else if 6 ≤ hoursElapsed ∧ adjustment_count ≤ 0 then true
  else if 12 ≤ hoursElapsed ∧ adjustment_count ≤ 1 then true
  else if 24 ≤ hoursElapsed ∧ adjustment_count ≤ 2 then true
  else if 36 ≤ hoursElapsed ∧ adjustment_count ≤ 3 then true
  else false

/-! ## Orchestrator and pending-order manager (`copy_trading_engine.py`)

Database effects are explicit: the `pending_copy_orders` table is a
`List PendingOrder`, and exchange-gateway calls are an `Action` trace. -/

/-- One row of `copy_trading_config`. -/
structure CopyConfig where
  user_wallet_address : String
  target_trader_address : String
  target_trader_name : String
  copy_percentage : ℚ
  enabled : Bool
  deriving DecidableEq, Repr

/-- One row of `pending_copy_orders`, with the columns the engine reads
or writes. -/
structure PendingOrder where
  user_wallet_address : String
  target_trader_address : String
  target_trader_name : String
  market_id : String
  market_name : String
  token_id : String
  side : String
  order_side : OrderSide
  target_size : ℚ
  target_price : ℚ
  initial_price : Option ℚ
  current_price : Option ℚ
  clob_order_id : Option String
  status : OrderStatus
  filled_size : Option ℚ
  price_adjustment_count : ℕ
  last_price_adjustment : Option ℚ
  created_at : ℚ
  last_updated : ℚ
  deriving DecidableEq, Repr

/-- `float(order['current_price'])` (the engine only reads it on rows
it wrote with a limit price). -/
def PendingOrder.current_priceD (o : PendingOrder) : ℚ :=
  o.current_price.getD 0

/-- An exchange-gateway call issued by the engine. -/
inductive Action where
  | submitLimit (token_id side : String) (order_side : OrderSide)
      (size price : ℚ)
  | submitMarket (token_id side : String) (order_side : OrderSide)
      (amount : ℚ)
  | cancelOrder (order_id : String)
  deriving DecidableEq, Repr

def Action.isSubmit : Action → Bool
  | .submitLimit _ _ _ _ _ => true
  | .submitMarket _ _ _ _ => true
  | .cancelOrder _ => false

/-- `self.MIN_TRADE_SIZE = 1.0` (dollars). -/
def MIN_TRADE_SIZE : ℚ := 1

/-- The WHERE clause of `_cancel_pending_buy_orders`: same user, market
and token, side BUY, status in ('pending', 'partial'). -/
def matchesOpenBuy (user market token : String) (o : PendingOrder) : Bool :=
  o.user_wallet_address == user && o.market_id == market &&
    o.token_id == token && o.order_side == .BUY && o.status.isOpen

/-- `CopyTradingEngine._cancel_pending_buy_orders`: every matching open
BUY row is cancelled on the exchange (when it has a CLOB order id) and
marked `cancelled` in the table. -/
def cancel_pending_buy_orders (user market token : String) (now : ℚ)
    (db : List PendingOrder) : List PendingOrder × List Action :=
  (db.map fun o =>
      if matchesOpenBuy user market token o then
        { o with status := .cancelled, last_updated := now }
      else o,
   db.filterMap fun o =>
      if matchesOpenBuy user market token o then
        o.clob_order_id.map Action.cancelOrder
      else none)

/-- `CopyTradingEngine._execute_copy_trade` on one change event:
min-size gate, BUY-cancellation on SELL events, pricing at 0 elapsed
hours, order submission, and the `_save_pending_order` insert.
`newOrderId` stands for the order id the exchange returns.  When the
pricing call raises (its market-order path), the exception propagates
to `_monitor_trader`'s per-change handler: the BUY cancellations
already committed stand, and no order or row is created. -/
def execute_copy_trade (cfg : CopyConfig) (change : ChangeEvent)
    (md : MarketData) (now : ℚ) (newOrderId : Option String)
    (db : List PendingOrder) : List PendingOrder × List Action :=
  let copyPercentage := cfg.copy_percentage / 100
  let targetSize := change.size_change
  let targetPrice := change.pos.avg_price
  let userSize := targetSize * copyPercentage
  let notionalValue := userSize * targetPrice
  if notionalValue < MIN_TRADE_SIZE then (db, [])
  else
    let cancelled :=
      if change.action = .SELL then
        cancel_pending_buy_orders cfg.user_wallet_address
          change.pos.market_id change.pos.token_id now db
      else (db, [])
    match calculate_optimal_price targetPrice change.action md 0 with
    | .error _ => (cancelled.1, cancelled.2)
    | .ok pricing =>
      let submitAct :=
        if pricing.order_type = .MARKET then
          Action.submitMarket change.pos.token_id change.pos.side
            change.action notionalValue
        else
          Action.submitLimit change.pos.token_id change.pos.side
            change.action userSize (pricing.price.getD 0)
      let row : PendingOrder :=
        { user_wallet_address := cfg.user_wallet_address
          target_trader_address := cfg.target_trader_address
          target_trader_name := cfg.target_trader_name
          market_id := change.pos.market_id
          market_name := change.pos.market_name
          token_id := change.pos.token_id
          side := change.pos.side
          order_side := change.action
          target_size := userSize
          target_price := change.pos.avg_price
          initial_price := pricing.price
          current_price := pricing.price
          clob_order_id := newOrderId
          status := .pending
          filled_size := none
          price_adjustment_count := 0
          last_price_adjustment := none
          created_at := now
          last_updated := now }
      (cancelled.1 ++ [row], cancelled.2 ++ [submitAct])

/-- `CopyTradingEngine._fetch_trader_positions`: on an HTTP error
status or a raised exception the function returns the empty dict; on
success it returns the fetched position dict. -/
def fetch_trader_positions (resp : Except Unit Snapshot) : Snapshot :=
  match resp with
  | .error _ => []
  | .ok positions => positions

/-- The snapshot `_get_last_snapshot` sees after `_save_snapshot current`
ran with previous latest snapshot `last`: saving inserts one row per
position at a fresh timestamp, so an empty `current` inserts nothing
and the previous snapshot stays the latest. -/
def latestSnapshotAfterSave (last current : Snapshot) : Snapshot :=
  if current.isEmpty then last else current

/-- `CopyTradingEngine._monitor_trader` for one trader and one cycle:
fetch, diff against the last snapshot, execute a copy trade per change
event, save the new snapshot.  Returns the latest stored snapshot, the
pending-order table and the gateway-call trace. -/
def monitor_trader (cfg : CopyConfig) (resp : Except Unit Snapshot)
    (lastSnapshot : Snapshot) (md : MarketData) (now : ℚ)
    (newOrderId : Option String) (db : List PendingOrder) :
    Snapshot × List PendingOrder × List Action :=
  let current := fetch_trader_positions resp
  let changes := detect_position_changes lastSnapshot current
  let step := changes.foldl
    (fun (acc : List PendingOrder × List Action) ch =>
      let r := execute_copy_trade cfg ch md now newOrderId acc.1
      (r.1, acc.2 ++ r.2))
    (db, [])
  (latestSnapshotAfterSave lastSnapshot current, step.1, step.2)

/-- One row of the `executed_copy_trades` ledger (the fields computed
by `_mark_order_filled`). -/
structure ExecutedCopyTrade where
  size : ℚ
  price : ℚ
  target_price : ℚ
  slippage : ℚ
  deriving DecidableEq, Repr

/-- `CopyTradingEngine._mark_order_filled`: set status `filled`,
record the filled size, and append a ledger row with
`slippage = current_price - target_price`. -/
def mark_order_filled (o : PendingOrder) (filledSize now : ℚ) :
    PendingOrder × ExecutedCopyTrade :=
  ({ o with
      status := .filled
      filled_size := some filledSize
      last_updated := now },
   { size := filledSize
     price := o.current_priceD
     target_price := o.target_price
     slippage := o.current_priceD - o.target_price })

/-- `CopyTradingEngine._convert_to_market_order` (happy path): cancel
the resting order when it has an id, submit a market order for
`target_size * target_price`, and update only `clob_order_id` and
`last_updated` in the row. -/
def convert_to_market_order (o : PendingOrder) (newOrderId : Option String)
    (now : ℚ) : PendingOrder × List Action :=
  ({ o with clob_order_id := newOrderId, last_updated := now },
   (o.clob_order_id.map Action.cancelOrder).toList ++
     [Action.submitMarket o.token_id o.side o.order_side
       (o.target_size * o.target_price)])

/-- `CopyTradingEngine._recreate_order_with_new_price` (happy path):
cancel the resting order, submit a limit order at the new price, store
the new price and id, bump the adjustment count and stamp the
adjustment time. -/
def recreate_order_with_new_price (o : PendingOrder) (newPrice : ℚ)
    (newOrderId : Option String) (now : ℚ) : PendingOrder × List Action :=
  ({ o with
      clob_order_id := newOrderId
      current_price := some newPrice
      price_adjustment_count := o.price_adjustment_count + 1
      last_price_adjustment := some now
      last_updated := now },
   (o.clob_order_id.map Action.cancelOrder).toList ++
     [Action.submitLimit o.token_id o.side o.order_side o.target_size
       newPrice])

/-- `CopyTradingEngine._adjust_order_price`: re-price with the pricing
engine; the source then checks order_type MARKET (convert) and falls
back to recreating the order when the new limit price differs from the
current one by more than 0.001.  When the pricing call raises (its
market-order path, see `calculate_optimal_price`), the exception
propagates to the per-order handler in `manage_pending_orders` before
`order_type` is ever inspected, and the row is left untouched with no
gateway call — so the MARKET branch below is unreachable in the
program. -/
def adjust_order_price (o : PendingOrder) (md : MarketData)
    (hoursElapsed now : ℚ) (newOrderId : Option String) :
    PendingOrder × List Action :=
  match calculate_optimal_price o.target_price o.order_side md
      hoursElapsed with
  | .error _ => (o, [])
  | .ok pricing =>
    if pricing.order_type = .MARKET then
      convert_to_market_order o newOrderId now
    else if 1/1000 < |pricing.price.getD 0 - o.current_priceD| then
      recreate_order_with_new_price o (pricing.price.getD 0) newOrderId now
    else (o, [])

/-- `CopyTradingEngine._manage_single_order`: look up the live status
(`none` models a failed status query, otherwise a status string and a
filled size); a FILLED report marks the order filled, anything else
asks `should_adjust_price` and, when it says yes, adjusts. -/
def manage_single_order (o : PendingOrder)
    (statusResp : Option (String × ℚ)) (md : MarketData) (now : ℚ)
    (newOrderId : Option String) :
    PendingOrder × List Action × Option ExecutedCopyTrade :=
  match statusResp with
  | none => (o, [], none)
  | some (st, filledSize) =>
    if st = "FILLED" then
      let r := mark_order_filled o filledSize now
      (r.1, [], some r.2)
    else
      let hoursElapsed := now - o.created_at
      if should_adjust_price now o.created_at o.last_price_adjustment
          o.price_adjustment_count then
        let r := adjust_order_price o md hoursElapsed now newOrderId
        (r.1, r.2, none)
      else (o, [], none)

/-- Count of non-terminal rows for one
(user, market, token, order side) key — the quantity the spec's
uniqueness invariant bounds by one. -/
def nonTerminalCount (db : List PendingOrder)
    (user market token : String) (oside : OrderSide) : ℕ :=
  (db.filter fun o =>
    o.user_wallet_address == user && o.market_id == market &&
      o.token_id == token && o.order_side == oside && o.status.isOpen).length

/-! ## Sample data used by witnesses and counterexamples -/

def adjustmentCheckpoints : List ℚ := [6, 12, 24, 36]

def sampleOrder : PendingOrder :=
  ⟨"u", "trader", "T", "m", "mkt", "t", "YES", .SELL, 10, 3/10,
    some (3/10), some (3/10), some "c1", .pending, none, 0, none, 0, 0⟩

def cfg10 : CopyConfig := ⟨"u", "trader", "T", 10, true⟩

def cfgHalf : CopyConfig := ⟨"u", "trader", "T", 1/2, true⟩

def posM : Position := ⟨"m", "mkt", "t", "YES", 100, 1/2⟩

def pos40 : Position := ⟨"m", "mkt", "t", "YES", 100, 2/5⟩

def mdNormal : MarketData := ⟨99/200, 101/200, some 1⟩

def lastSnap1 : Snapshot := [("m_t", posM)]

def evNew : ChangeEvent := ⟨.NEW_POSITION, .BUY, "m_t", posM, 100⟩

def evNew40 : ChangeEvent := ⟨.NEW_POSITION, .BUY, "m_t", pos40, 100⟩

def evInc : ChangeEvent :=
  ⟨.SIZE_INCREASE, .BUY, "m_t", { posM with size := 150 }, 50⟩

def evSell : ChangeEvent := ⟨.SIZE_DECREASE, .SELL, "m_t", posM, 40⟩

def buyRow : PendingOrder :=
  ⟨"u", "trader", "T", "m", "mkt", "t", "YES", .BUY, 5, 1/2,
    some (1/2), some (1/2), some "b1", .pending, none, 0, none, 0, 0⟩

/-! ## Rounding lemmas -/

theorem round8_mono {x y : ℚ} (h : x ≤ y) : round8 x ≤ round8 y := by
  unfold round8
  have h3 : round (x * 100000000) ≤ round (y * 100000000) := by
    rw [round_eq, round_eq]
    exact Int.floor_le_floor (by linarith)
  have h4 : ((round (x * 100000000) : ℤ) : ℚ)
      ≤ ((round (y * 100000000) : ℤ) : ℚ) := by
    exact_mod_cast h3
  linarith

theorem round8_zero : round8 0 = 0 := by
  simp [round8]

theorem round8_one : round8 1 = 1 := by
  unfold round8
  rw [one_mul, round_ofNat]
  norm_num

theorem round8_nonneg {x : ℚ} (h : 0 ≤ x) : 0 ≤ round8 x := by
  have := round8_mono h
  rwa [round8_zero] at this

theorem round8_le_one {x : ℚ} (h : x ≤ 1) : round8 x ≤ 1 := by
  have := round8_mono h
  rwa [round8_one] at this

/-- Shared: any elapsed time at or past the regime ceiling makes the
strategy dispatch compute the market-order decision. -/
theorem market_past_ceiling (target : ℚ) (side : OrderSide) (md : MarketData)
    (t : ℚ) (h : marketCeiling md target ≤ t) :
    pricing_decision target side md t = ⟨none, .MARKET, .critical⟩ := by
  unfold marketCeiling at h
  simp only [pricing_decision, tight_spread_strategy,
    normal_spread_strategy, wide_spread_strategy]
  split_ifs at h ⊢ <;> first | rfl | linarith

/-- Shared: when the computed decision carries a limit price,
`calculate_optimal_price` returns it (the logging format succeeds). -/
theorem calculate_ok_of_price_some {target : ℚ} {side : OrderSide}
    {md : MarketData} {t p : ℚ}
    (h : (pricing_decision target side md t).price = some p) :
    calculate_optimal_price target side md t
      = .ok (pricing_decision target side md t) := by
  simp only [calculate_optimal_price]
  rw [h]

/-- Shared: a returned pricing result is exactly the computed
decision. -/
theorem calculate_ok_inv {target : ℚ} {side : OrderSide} {md : MarketData}
    {t : ℚ} {r : PricingResult}
    (h : calculate_optimal_price target side md t = .ok r) :
    r = pricing_decision target side md t := by
  simp only [calculate_optimal_price] at h
  cases hp : (pricing_decision target side md t).price <;>
    simp only [hp] at h
  · exact Except.noConfusion h
  · exact (Except.ok.inj h).symm

/-- Shared: at 0 elapsed hours every regime prices at the (rounded)
target with a limit order, so the pricing call never raises on a fresh
order. -/
theorem pricing_decision_at_zero (target : ℚ) (side : OrderSide)
    (md : MarketData) :
    (pricing_decision target side md 0).price = some (round8 target) ∧
    (pricing_decision target side md 0).order_type = .LIMIT := by
  simp only [pricing_decision, tight_spread_strategy,
    normal_spread_strategy, wide_spread_strategy]
  split_ifs <;>
    first
      | exact ⟨rfl, rfl⟩
      | (exfalso
         linarith [show (0:ℚ) < 6 by norm_num, show (0:ℚ) < 2 by norm_num])

/-- C5 (code behaviour at the failing inputs): for hours_elapsed at or
past 36 in the tight and normal regimes and at or past 24 in the wide
regime, the strategy computes the market-order decision (price None,
MARKET, critical) — but `calculate_optimal_price` then raises
TypeError in its logging f-string (None formatted with `:.4f`) and
never returns it, for every side and target price. -/
theorem claim5_market_path_raises (target : ℚ) (side : OrderSide)
    (md : MarketData) (t : ℚ)
    (h : (spreadPctOf md target < 2 ∧ 36 ≤ t) ∨
         (2 ≤ spreadPctOf md target ∧ 24 ≤ t)) :
    pricing_decision target side md t = ⟨none, .MARKET, .critical⟩ ∧
    calculate_optimal_price target side md t = .error () := by
  have hd : pricing_decision target side md t = ⟨none, .MARKET, .critical⟩ := by
    apply market_past_ceiling
    unfold marketCeiling
    rcases h with ⟨hs, ht⟩ | ⟨hs, ht⟩
    · rw [if_pos hs]; exact ht
    · rw [if_neg (not_lt.2 hs)]; exact ht
  refine ⟨hd, ?_⟩
  simp only [calculate_optimal_price]
  rw [hd]

theorem claim5_witness :
    pricing_decision (2/5) .SELL ⟨12/25, 13/25, some 3⟩ 25
      = ⟨none, .MARKET, .critical⟩ ∧
    calculate_optimal_price (2/5) .SELL ⟨12/25, 13/25, some 3⟩ 25
      = .error () :=
  claim5_market_path_raises (2/5) .SELL ⟨12/25, 13/25, some 3⟩ 25
    (Or.inr ⟨by norm_num [spreadPctOf], by norm_num⟩)

/-- C6: `should_adjust_price` returns false below 6h elapsed; with at
least one previous adjustment it returns false within 3h of it; and a
true answer with adjustment_count = k - 1 requires elapsed time at or
past checkpoint k of 6h, 12h, 24h, 36h. -/
theorem claim6_should_adjust_gating (now created : ℚ) (last : Option ℚ)
    (count : ℕ) :
    (now - created < 6 → should_adjust_price now created last count = false) ∧
    (∀ t, last = some t → 1 ≤ count → now - t < 3 →
      should_adjust_price now created last count = false) ∧
    (should_adjust_price now created last count = true →
      count < 4 ∧ adjustmentCheckpoints.getD count 0 ≤ now - created) := by
  refine ⟨?_, ?_, ?_⟩
  · intro h
    simp [should_adjust_price, h]
  · intro t hlast hcount hlt
    subst hlast
    simp only [should_adjust_price]
    split_ifs with h1 h2 h3 <;> first | rfl | omega | simp_all
  · intro h
    simp only [should_adjust_price] at h
    split_ifs at h with h1 h2 h3 h4 h5 h6 h7
    · obtain ⟨hc, ht⟩ := h2
      subst hc
      exact ⟨by norm_num, by simpa [adjustmentCheckpoints, List.getD] using ht⟩
    · obtain ⟨ht, hc⟩ := h4
      have hc0 : count = 0 := by omega
      subst hc0
      exact ⟨by norm_num, by simpa [adjustmentCheckpoints, List.getD] using ht⟩
    · obtain ⟨ht, hc⟩ := h5
      refine ⟨by omega, ?_⟩
      interval_cases count <;> simp [adjustmentCheckpoints, List.getD] <;> linarith
    · obtain ⟨ht, hc⟩ := h6
      refine ⟨by omega, ?_⟩
      interval_cases count <;> simp [adjustmentCheckpoints, List.getD] <;> linarith
    · obtain ⟨ht, hc⟩ := h7
      refine ⟨by omega, ?_⟩
      interval_cases count <;> simp [adjustmentCheckpoints, List.getD] <;> linarith

theorem claim6_witness :
    should_adjust_price 5 0 none 0 = false :=
  (claim6_should_adjust_gating 5 0 none 0).1 (by norm_num)

/-- C10: once price_adjustment_count reaches 4, `should_adjust_price`
is false for every order age and last-adjustment time, and a manager
pass over a not-yet-filled order leaves the row unchanged and issues no
gateway call — so the order is neither re-priced nor converted to a
market order. -/
theorem claim10_no_action_after_four_adjustments (o : PendingOrder)
    (now : ℚ) (hc : 4 ≤ o.price_adjustment_count) :
    should_adjust_price now o.created_at o.last_price_adjustment
      o.price_adjustment_count = false ∧
    ∀ (statusResp : Option (String × ℚ)) (md : MarketData)
      (newOrderId : Option String),
      (∀ fs, statusResp ≠ some ("FILLED", fs)) →
      manage_single_order o statusResp md now newOrderId = (o, [], none) := by
  have hsa : should_adjust_price now o.created_at o.last_price_adjustment
      o.price_adjustment_count = false := by
    simp only [should_adjust_price]
    split_ifs with h1 h2 h3 h4 h5 h6 h7 <;> first | rfl | omega
  refine ⟨hsa, ?_⟩
  intro statusResp md newOrderId hnf
  match statusResp with
  | none => rfl
  | some (st, fs) =>
    have hst : ¬ st = "FILLED" := by
      intro he
      exact hnf fs (by rw [he])
    simp [manage_single_order, hst, hsa]

theorem claim10_witness :
    should_adjust_price 100 0
      ({ sampleOrder with price_adjustment_count := 4 }).last_price_adjustment
      4 = false ∧
    manage_single_order { sampleOrder with price_adjustment_count := 4 }
      (some ("LIVE", 0)) ⟨99/200, 101/200, some 1⟩ 100 (some "n1")
      = ({ sampleOrder with price_adjustment_count := 4 }, [], none) := by
  have h := claim10_no_action_after_four_adjustments
    { sampleOrder with price_adjustment_count := 4 } 100 (by norm_num)
  exact ⟨h.1, h.2 (some ("LIVE", 0)) ⟨99/200, 101/200, some 1⟩ (some "n1")
    (by intro fs hcontra; simp [sampleOrder] at hcontra)⟩

/-- C9 (code behaviour at the failing input): the MARKET signal is
never delivered to the manager.  For an order past the regime ceiling
(here a SELL at target 0.30, normal-regime quotes, 40h old), the
pricing call raises before `_adjust_order_price` can inspect
order_type, the per-order handler swallows the exception, and the row
is left untouched with no cancellation and no market order — the
conversion described by the claim never happens. -/
theorem claim9_conversion_never_happens :
    calculate_optimal_price sampleOrder.target_price sampleOrder.order_side
      ⟨99/200, 101/200, some 1⟩ 40 = .error () ∧
    adjust_order_price sampleOrder ⟨99/200, 101/200, some 1⟩ 40 41
      (some "n2") = (sampleOrder, []) ∧
    manage_single_order sampleOrder (some ("LIVE", 0))
      ⟨99/200, 101/200, some 1⟩ 41 (some "n2") = (sampleOrder, [], none) :=
  ⟨by with_unfolding_all rfl, by with_unfolding_all rfl,
   by with_unfolding_all rfl⟩

/-- C7: an event whose notional (size_delta * copy_percentage/100 *
reference_price) is below MIN_TRADE_SIZE is silently skipped — table
and gateway untouched; at or above the floor, exactly one row is added
and an order is submitted. -/
theorem claim7_min_trade_size_gate (cfg : CopyConfig) (change : ChangeEvent)
    (md : MarketData) (now : ℚ) (newOrderId : Option String)
    (db : List PendingOrder) :
    (change.size_change * (cfg.copy_percentage / 100) * change.pos.avg_price
        < MIN_TRADE_SIZE →
      execute_copy_trade cfg change md now newOrderId db = (db, [])) ∧
    (MIN_TRADE_SIZE ≤ change.size_change * (cfg.copy_percentage / 100) *
        change.pos.avg_price →
      (execute_copy_trade cfg change md now newOrderId db).1.length
          = db.length + 1 ∧
      ∃ a ∈ (execute_copy_trade cfg change md now newOrderId db).2,
        a.isSubmit = true) := by
  constructor
  · intro h
    simp only [execute_copy_trade]
    rw [if_pos h]
  · intro h
    simp only [execute_copy_trade]
    rw [if_neg (not_lt.2 h)]
    simp only [calculate_ok_of_price_some
      (pricing_decision_at_zero change.pos.avg_price change.action md).1]
    constructor
    · by_cases hact : change.action = .SELL <;>
        simp [hact, cancel_pending_buy_orders]
    · refine ⟨_, List.mem_append_right _ (List.mem_singleton_self _), ?_⟩
      split <;> rfl

theorem claim7_witness :
    (execute_copy_trade cfgHalf evNew40 mdNormal 0 (some "w1") [] = ([], [])) ∧
    ((execute_copy_trade cfg10 evNew40 mdNormal 0 (some "w1") []).1.length
        = ([] : List PendingOrder).length + 1 ∧
      ∃ a ∈ (execute_copy_trade cfg10 evNew40 mdNormal 0 (some "w1") []).2,
        a.isSubmit = true) :=
  ⟨(claim7_min_trade_size_gate cfgHalf evNew40 mdNormal 0 (some "w1") []).1
      (by norm_num [cfgHalf, evNew40, pos40, MIN_TRADE_SIZE]),
   (claim7_min_trade_size_gate cfg10 evNew40 mdNormal 0 (some "w1") []).2
      (by norm_num [cfg10, evNew40, pos40, MIN_TRADE_SIZE])⟩

/-- C1 (code behaviour at the failing input): a failed positions fetch
yields the empty dict, the monitor then diffs the last snapshot against
it and emits a POSITION_CLOSED/SELL event for the held position, and a
sell order is submitted and recorded — the trader is not skipped.  Only
the snapshot base stays unchanged. -/
theorem claim1_fetch_failure_sells_everything :
    fetch_trader_positions (Except.error ()) = [] ∧
    detect_position_changes lastSnap1 (fetch_trader_positions (Except.error ()))
      = [⟨.POSITION_CLOSED, .SELL, "m_t", posM, 100⟩] ∧
    (monitor_trader cfg10 (Except.error ()) lastSnap1 mdNormal 0 (some "o1")
        []).1 = lastSnap1 ∧
    (monitor_trader cfg10 (Except.error ()) lastSnap1 mdNormal 0 (some "o1")
        []).2.2 = [Action.submitLimit "t" "YES" .SELL 10 (1/2)] ∧
    ((monitor_trader cfg10 (Except.error ()) lastSnap1 mdNormal 0 (some "o1")
        []).2.1.map fun o => (o.order_side, o.status))
      = [(OrderSide.SELL, OrderStatus.pending)] :=
  ⟨rfl, by with_unfolding_all rfl, by with_unfolding_all rfl,
   by with_unfolding_all rfl, by with_unfolding_all rfl⟩

/-- C4 counterexample: two successive BUY events for the same
(user, market, token) leave two coexisting non-terminal BUY rows,
refuting the at-most-one invariant. -/
theorem claim4_uniqueness_cex :
    nonTerminalCount
      (execute_copy_trade cfg10 evInc mdNormal 0 (some "o2")
        (execute_copy_trade cfg10 evNew mdNormal 0 (some "o1") []).1).1
      "u" "m" "t" .BUY = 2 := by
  with_unfolding_all rfl

/-- C4 (amended): processing a SELL event at or above the minimum
notional leaves no open BUY row for that (user, market, token) — every
one is marked cancelled — and appends the new SELL row with status
pending afterwards. -/
theorem claim4_sell_cancels_open_buys (cfg : CopyConfig)
    (change : ChangeEvent) (md : MarketData) (now : ℚ)
    (newOrderId : Option String) (db : List PendingOrder)
    (hsell : change.action = .SELL)
    (hmin : MIN_TRADE_SIZE ≤ change.size_change * (cfg.copy_percentage / 100)
      * change.pos.avg_price) :
    (∀ o ∈ (execute_copy_trade cfg change md now newOrderId db).1,
      o.user_wallet_address = cfg.user_wallet_address →
      o.market_id = change.pos.market_id →
      o.token_id = change.pos.token_id →
      o.order_side = .BUY → o.status.isOpen = false) ∧
    ∃ r, (execute_copy_trade cfg change md now newOrderId db).1.getLast?
        = some r ∧
      r.order_side = .SELL ∧ r.status = .pending ∧
      r.user_wallet_address = cfg.user_wallet_address ∧
      r.market_id = change.pos.market_id ∧
      r.token_id = change.pos.token_id := by
  simp only [execute_copy_trade]
  rw [if_neg (not_lt.2 hmin), if_pos hsell]
  simp only [calculate_ok_of_price_some
    (pricing_decision_at_zero change.pos.avg_price change.action md).1]
  constructor
  · intro o ho hu hmkt htok hb
    rcases List.mem_append.1 ho with hin | hin
    · simp only [cancel_pending_buy_orders, List.mem_map] at hin
      obtain ⟨o0, ho0, rfl⟩ := hin
      cases hmb : matchesOpenBuy cfg.user_wallet_address
          change.pos.market_id change.pos.token_id o0 with
      | true => simp [hmb, OrderStatus.isOpen]
      | false =>
        simp [hmb] at hu hmkt htok hb ⊢
        simp [matchesOpenBuy, hu, hmkt, htok, hb] at hmb
        exact hmb
    · rcases List.mem_singleton.1 hin with rfl
      rw [hsell] at hb
      cases hb
  · exact ⟨_, List.getLast?_concat _, hsell, rfl, rfl, rfl, rfl⟩

theorem claim4_witness :
    (∀ o ∈ (execute_copy_trade cfg10 evSell mdNormal 0 (some "o3")
        [buyRow]).1,
      o.user_wallet_address = cfg10.user_wallet_address →
      o.market_id = evSell.pos.market_id →
      o.token_id = evSell.pos.token_id →
      o.order_side = .BUY → o.status.isOpen = false) ∧
    ∃ r, (execute_copy_trade cfg10 evSell mdNormal 0 (some "o3")
        [buyRow]).1.getLast? = some r ∧
      r.order_side = .SELL ∧ r.status = .pending ∧
      r.user_wallet_address = cfg10.user_wallet_address ∧
      r.market_id = evSell.pos.market_id ∧
      r.token_id = evSell.pos.token_id :=
  claim4_sell_cancels_open_buys cfg10 evSell mdNormal 0 (some "o3") [buyRow]
    rfl (by norm_num [cfg10, evSell, posM, MIN_TRADE_SIZE])

/-! ## Change-detector characterization (C2) -/

theorem changesForKey_key (old : Snapshot) (k : String) (p : Position) :
    ∀ e ∈ changesForKey old k p, e.key = k := by
  intro e he
  unfold changesForKey at he
  cases hl : lookupKey old k <;> simp only [hl] at he
  · simp only [List.mem_singleton] at he
    subst he; rfl
  · split_ifs at he <;>
      simp only [List.mem_singleton, List.not_mem_nil] at he
    · subst he; rfl
    · subst he; rfl

theorem mem_closedChanges {old newSnap : Snapshot} {e : ChangeEvent} :
    e ∈ closedChanges old newSnap ↔
      ∃ kp ∈ old, lookupKey newSnap kp.1 = none ∧
        e = ⟨.POSITION_CLOSED, .SELL, kp.1, kp.2, kp.2.size⟩ := by
  unfold closedChanges
  rw [List.mem_filterMap]
  constructor
  · rintro ⟨kp, hkp, hf⟩
    split_ifs at hf with h
    exact ⟨kp, hkp, h, (Option.some.inj hf).symm⟩
  · rintro ⟨kp, hkp, h, rfl⟩
    exact ⟨kp, hkp, by rw [if_pos h]⟩

theorem closedChanges_key_mem {old newSnap : Snapshot} {e : ChangeEvent}
    (he : e ∈ closedChanges old newSnap) : e.key ∈ old.map Prod.fst := by
  obtain ⟨kp, hkp, _, rfl⟩ := mem_closedChanges.1 he
  exact List.mem_map.2 ⟨kp, hkp, rfl⟩

theorem lookupKey_eq_none_of_not_mem (s : Snapshot) (k : String)
    (h : k ∉ s.map Prod.fst) : lookupKey s k = none := by
  induction s with
  | nil => rfl
  | cons kp rest ih =>
    simp only [List.map_cons, List.mem_cons, not_or] at h
    simp only [lookupKey]
    rw [if_neg fun he => h.1 he.symm]
    exact ih h.2

theorem filter_flatMap_changes (old : Snapshot) (k : String) :
    ∀ newSnap : Snapshot, (newSnap.map Prod.fst).Nodup →
      ((newSnap.flatMap fun kp => changesForKey old kp.1 kp.2).filter
          (fun e => e.key = k))
        = match lookupKey newSnap k with
          | none => []
          | some p => changesForKey old k p := by
  intro newSnap
  induction newSnap with
  | nil => intro _; rfl
  | cons kp rest ih =>
    intro hnd
    simp only [List.map_cons, List.nodup_cons] at hnd
    obtain ⟨hk, hnd'⟩ := hnd
    rw [List.flatMap_cons, List.filter_append, ih hnd']
    by_cases he : kp.1 = k
    · subst he
      rw [lookupKey_eq_none_of_not_mem rest kp.1 hk]
      simp only [lookupKey, if_pos rfl]
      rw [List.filter_eq_self.2 fun e hmem =>
        decide_eq_true (changesForKey_key old kp.1 kp.2 e hmem)]
      simp
    · simp only [lookupKey, if_neg he]
      rw [List.filter_eq_nil_iff.2 fun e hmem hek => by
        rw [changesForKey_key old kp.1 kp.2 e hmem] at hek
        exact he (of_decide_eq_true hek)]
      simp

theorem filter_closedChanges (newSnap : Snapshot) (k : String) :
    ∀ old : Snapshot, (old.map Prod.fst).Nodup →
      ((closedChanges old newSnap).filter (fun e => e.key = k))
        = match lookupKey old k, lookupKey newSnap k with
          | some p, none => [⟨.POSITION_CLOSED, .SELL, k, p, p.size⟩]
          | _, _ => [] := by
  intro old
  induction old with
  | nil =>
    intro _
    cases lookupKey newSnap k <;> rfl
  | cons kp rest ih =>
    intro hnd
    simp only [List.map_cons, List.nodup_cons] at hnd
    obtain ⟨hk, hnd'⟩ := hnd
    by_cases hnew : lookupKey newSnap kp.1 = none
    · have hstep : closedChanges (kp :: rest) newSnap
          = ⟨.POSITION_CLOSED, .SELL, kp.1, kp.2, kp.2.size⟩ ::
              closedChanges rest newSnap := by
        unfold closedChanges
        rw [List.filterMap_cons]
        simp [hnew]
      rw [hstep]
      by_cases he : kp.1 = k
      · subst he
        have htail : (closedChanges rest newSnap).filter
            (fun e => e.key = kp.1) = [] :=
          List.filter_eq_nil_iff.2 fun e hmem hek => by
            have hmem' := closedChanges_key_mem hmem
            rw [of_decide_eq_true hek] at hmem'
            exact hk hmem'
        rw [List.filter_cons_of_pos (by simp), htail]
        simp [lookupKey, hnew]
      · rw [List.filter_cons_of_neg (by simp [he]), ih hnd']
        simp only [lookupKey, if_neg he]
    · obtain ⟨q, hq⟩ := Option.ne_none_iff_exists'.1 hnew
      have hstep : closedChanges (kp :: rest) newSnap
          = closedChanges rest newSnap := by
        unfold closedChanges
        rw [List.filterMap_cons]
        simp [hq]
      rw [hstep, ih hnd']
      by_cases he : kp.1 = k
      · subst he
        rw [lookupKey_eq_none_of_not_mem rest kp.1 hk]
        simp [lookupKey, hq]
      · simp only [lookupKey, if_neg he]

/-- C2 (amended): per key, `detect` emits exactly the reference event of
spec rules 4.1 — NEW_POSITION/BUY at new.avg_price, SIZE_INCREASE/BUY at
new.avg_price, SIZE_DECREASE/SELL at old.avg_price, POSITION_CLOSED/SELL
at old.avg_price, nothing on equal sizes — and, provided every position
size in both snapshots is positive, every emitted event has
size_delta > 0. -/
theorem claim2_detect_characterization (old newSnap : Snapshot)
    (hold : (old.map Prod.fst).Nodup) (hnew : (newSnap.map Prod.fst).Nodup)
    (hpos : ∀ kp ∈ old ++ newSnap, 0 < kp.2.size) :
    (∀ k, ((detect_position_changes old newSnap).filter
          (fun e => e.key = k)).map ChangeEvent.toRef
        = (refEvent (lookupKey old k) (lookupKey newSnap k)).toList) ∧
    ∀ e ∈ detect_position_changes old newSnap, 0 < e.size_change := by
  constructor
  · intro k
    unfold detect_position_changes
    rw [List.filter_append, List.map_append,
      filter_flatMap_changes old k newSnap hnew,
      filter_closedChanges newSnap k old hold]
    cases hn : lookupKey newSnap k with
    | none =>
      cases ho : lookupKey old k with
      | none => rfl
      | some p => rfl
    | some p =>
      cases ho : lookupKey old k with
      | none => simp [changesForKey, ho, refEvent, ChangeEvent.toRef]
      | some q =>
        simp only [changesForKey, ho, refEvent]
        split_ifs <;> simp [ChangeEvent.toRef]
  · intro e he
    unfold detect_position_changes at he
    rcases List.mem_append.1 he with hin | hin
    · obtain ⟨kp, hkp, hmem⟩ := List.mem_flatMap.1 hin
      unfold changesForKey at hmem
      cases ho : lookupKey old kp.1 <;> simp only [ho] at hmem
      · simp only [List.mem_singleton] at hmem
        subst hmem
        exact hpos kp (List.mem_append.2 (Or.inr hkp))
      · rename_i q
        split_ifs at hmem with h1 h2 <;>
          simp only [List.mem_singleton, List.not_mem_nil] at hmem
        · subst hmem
          show 0 < kp.2.size - q.size
          linarith
        · subst hmem
          show 0 < q.size - kp.2.size
          linarith
    · obtain ⟨kp, hkp, -, rfl⟩ := mem_closedChanges.1 hin
      exact hpos kp (List.mem_append.2 (Or.inl hkp))

theorem claim2_witness :
    (∀ k, ((detect_position_changes lastSnap1
          [("m_t", { posM with size := 60 })]).filter
          (fun e => e.key = k)).map ChangeEvent.toRef
        = (refEvent (lookupKey lastSnap1 k)
            (lookupKey [("m_t", { posM with size := 60 })] k)).toList) ∧
    ∀ e ∈ detect_position_changes lastSnap1
        [("m_t", { posM with size := 60 })], 0 < e.size_change :=
  claim2_detect_characterization lastSnap1 [("m_t", { posM with size := 60 })]
    (by simp [lastSnap1]) (by simp)
    (by
      intro kp hkp
      simp only [lastSnap1, List.cons_append, List.nil_append,
        List.mem_cons, List.not_mem_nil, or_false] at hkp
      rcases hkp with h | h <;> subst h <;> norm_num [posM])

/-- C2 counterexample: a zero-size position appearing in the new
snapshot yields a NEW_POSITION event whose size_delta is 0, not
positive. -/
theorem claim2_positive_delta_cex :
    detect_position_changes [] [("m_t", ⟨"m", "", "t", "YES", 0, 2/5⟩)]
      = [⟨.NEW_POSITION, .BUY, "m_t", ⟨"m", "", "t", "YES", 0, 2/5⟩, 0⟩] ∧
    ¬ (0 : ℚ) < 0 :=
  ⟨by with_unfolding_all rfl, by norm_num⟩

/-! ## Pricing monotonicity (C3) -/

theorem if_buy {α : Sort _} (a b : α) :
    (if OrderSide.BUY = OrderSide.BUY then a else b) = a := if_pos rfl

theorem tight_buy_price_le (target bid ask t1 t2 : ℚ) (hba : bid ≤ ask)
    (htp : target ≤ bid + (7/20) * (ask - bid)) (h12 : t1 ≤ t2)
    (h2 : t2 < 36) :
    ∃ p1 p2,
      (tight_spread_strategy target bid ask ((bid + ask) / 2) (ask - bid)
        .BUY t1).price = some p1 ∧
      (tight_spread_strategy target bid ask ((bid + ask) / 2) (ask - bid)
        .BUY t2).price = some p2 ∧
      p1 ≤ p2 := by
  have hs : 0 ≤ ask - bid := by linarith
  simp only [tight_spread_strategy, if_buy]
  split_ifs <;>
    first
      | linarith
      | (refine ⟨_, _, rfl, rfl, round8_mono ?_⟩
         first
           | exact le_rfl
           | linarith
           | (apply le_min <;> linarith)
           | exact le_trans (min_le_left _ _) (by linarith))

theorem normal_buy_price_le (target bid ask t1 t2 : ℚ) (hba : bid ≤ ask)
    (htp : target ≤ bid + (7/20) * (ask - bid)) (h12 : t1 ≤ t2)
    (h2 : t2 < 36) :
    ∃ p1 p2,
      (normal_spread_strategy target bid ask ((bid + ask) / 2) (ask - bid)
        .BUY t1).price = some p1 ∧
      (normal_spread_strategy target bid ask ((bid + ask) / 2) (ask - bid)
        .BUY t2).price = some p2 ∧
      p1 ≤ p2 := by
  have hs : 0 ≤ ask - bid := by linarith
  simp only [normal_spread_strategy, if_buy]
  split_ifs <;>
    first
      | linarith
      | exact ⟨_, _, rfl, rfl, round8_mono (by linarith)⟩

theorem wide_buy_price_le (target bid ask t1 t2 : ℚ) (hba : bid ≤ ask)
    (htp : target ≤ bid + (7/20) * (ask - bid)) (h12 : t1 ≤ t2)
    (h2 : t2 < 24) :
    ∃ p1 p2,
      (wide_spread_strategy target bid ask ((bid + ask) / 2) (ask - bid)
        .BUY t1).price = some p1 ∧
      (wide_spread_strategy target bid ask ((bid + ask) / 2) (ask - bid)
        .BUY t2).price = some p2 ∧
      p1 ≤ p2 := by
  have hs : 0 ≤ ask - bid := by linarith
  simp only [wide_spread_strategy, if_buy]
  split_ifs <;>
    first
      | linarith
      | exact ⟨_, _, rfl, rfl, round8_mono (by linarith)⟩

/-- C3 (amended): for a fixed regime and BUY side, the returned limit
price is monotone in elapsed time below the regime ceiling provided the
quotes are not crossed and the target price does not sit above
bid + 0.35·spread; at or past the ceiling no price is returned at all —
the strategy computes the market-order decision and
`calculate_optimal_price` raises in its logging f-string (modelled as
the error value).  (Unconditional monotonicity fails: see the
counterexample, where the target sits far above the market.) -/
theorem claim3_buy_price_monotone_amended (md : MarketData)
    (target t1 t2 : ℚ) (hba : md.best_bid ≤ md.best_ask)
    (htp : target ≤ md.best_bid + (7/20) * (md.best_ask - md.best_bid))
    (h12 : t1 < t2) (h2 : t2 < marketCeiling md target) :
    (∃ r1 r2 p1 p2,
      calculate_optimal_price target .BUY md t1 = .ok r1 ∧
      calculate_optimal_price target .BUY md t2 = .ok r2 ∧
      r1.price = some p1 ∧ r2.price = some p2 ∧
      p1 ≤ p2) ∧
    ∀ t, marketCeiling md target ≤ t →
      calculate_optimal_price target .BUY md t = .error () := by
  constructor
  · have hmono : ∃ p1 p2,
        (pricing_decision target .BUY md t1).price = some p1 ∧
        (pricing_decision target .BUY md t2).price = some p2 ∧
        p1 ≤ p2 := by
      unfold marketCeiling at h2
      simp only [pricing_decision]
      split_ifs with ht1 ht2
      · rw [if_pos (by linarith : spreadPctOf md target < 2)] at h2
        exact tight_buy_price_le target md.best_bid md.best_ask t1 t2 hba htp
          h12.le h2
      · rw [if_pos ht2] at h2
        exact normal_buy_price_le target md.best_bid md.best_ask t1 t2 hba htp
          h12.le h2
      · rw [if_neg ht2] at h2
        exact wide_buy_price_le target md.best_bid md.best_ask t1 t2 hba htp
          h12.le h2
    obtain ⟨p1, p2, hp1, hp2, hle⟩ := hmono
    exact ⟨_, _, p1, p2, calculate_ok_of_price_some hp1,
      calculate_ok_of_price_some hp2, hp1, hp2, hle⟩
  · intro t ht
    have hd := market_past_ceiling target .BUY md t ht
    simp only [calculate_optimal_price]
    rw [hd]

theorem claim3_witness :
    (∃ r1 r2 p1 p2,
      calculate_optimal_price (99/200) .BUY mdNormal 7 = .ok r1 ∧
      calculate_optimal_price (99/200) .BUY mdNormal 13 = .ok r2 ∧
      r1.price = some p1 ∧ r2.price = some p2 ∧
      p1 ≤ p2) ∧
    ∀ t, marketCeiling mdNormal (99/200) ≤ t →
      calculate_optimal_price (99/200) .BUY mdNormal t = .error () :=
  claim3_buy_price_monotone_amended mdNormal (99/200) 7 13
    (by norm_num [mdNormal]) (by norm_num [mdNormal]) (by norm_num)
    (by norm_num [marketCeiling, spreadPctOf, mdNormal])

/-- C3 counterexample: with the target price far above the market
(normal regime, bid 0.50, ask 0.51, target 0.90) the BUY price at 7h is
0.902 but at 13h is 0.506 — the price moves backward between the 6-12h
and 12-24h windows, refuting monotonicity, although 7 < 13 < 36. -/
theorem claim3_monotonicity_cex :
    (7 : ℚ) < 13 ∧ (13 : ℚ) < 36 ∧
    calculate_optimal_price (9/10) .BUY ⟨1/2, 51/100, some 1⟩ 7
      = .ok ⟨some (451/500), .LIMIT, .medium⟩ ∧
    calculate_optimal_price (9/10) .BUY ⟨1/2, 51/100, some 1⟩ 13
      = .ok ⟨some (253/500), .LIMIT, .high⟩ ∧
    (253/500 : ℚ) < 451/500 :=
  ⟨by norm_num, by norm_num, by with_unfolding_all rfl,
   by with_unfolding_all rfl, by norm_num⟩

/-! ## Price-range invariant (C8) -/

set_option maxHeartbeats 1600000 in
/-- Shared: every limit price the strategy dispatch computes lies in
[0,1] under the head-room hypotheses. -/
theorem pricing_decision_price_bounds (md : MarketData)
    (target : ℚ) (hba : md.best_bid ≤ md.best_ask)
    (hb0 : 0 ≤ md.best_bid - (1/10) * (md.best_ask - md.best_bid))
    (ha1 : md.best_ask + (1/10) * (md.best_ask - md.best_bid) ≤ 1)
    (ht0 : 0 ≤ target - (2/10) * (md.best_ask - md.best_bid))
    (ht1 : target + (2/10) * (md.best_ask - md.best_bid) ≤ 1) :
    ∀ (side : OrderSide) (t p : ℚ),
      (pricing_decision target side md t).price = some p →
      0 ≤ p ∧ p ≤ 1 := by
  intro side t p hp
  have hs : 0 ≤ md.best_ask - md.best_bid := by linarith
  simp only [pricing_decision, tight_spread_strategy,
    normal_spread_strategy, wide_spread_strategy] at hp
  split_ifs at hp <;>
    first
      | exact Option.noConfusion hp
      | (injection hp with h
         subst h
         constructor
         · apply round8_nonneg
           first
             | linarith
             | (apply le_min <;> linarith)
             | exact le_trans (by linarith) (le_max_left _ _)
         · apply round8_le_one
           first
             | linarith
             | exact le_trans (min_le_left _ _) (by linarith)
             | (apply max_le <;> linarith))

/-- C8 (amended): every limit price `calculate_optimal_price` returns —
and hence every initial_price/current_price the engine stores — lies in
[0,1] provided the quotes leave head-room for the overshoot branches:
bid ≤ ask, bid - 0.1·spread ≥ 0, ask + 0.1·spread ≤ 1, and
target ∈ [0.2·spread, 1 - 0.2·spread].  Without that head-room the
engine stores prices outside [0,1] (see the counterexample). -/
theorem claim8_limit_price_in_unit_range_amended (md : MarketData)
    (target : ℚ) (hba : md.best_bid ≤ md.best_ask)
    (hb0 : 0 ≤ md.best_bid - (1/10) * (md.best_ask - md.best_bid))
    (ha1 : md.best_ask + (1/10) * (md.best_ask - md.best_bid) ≤ 1)
    (ht0 : 0 ≤ target - (2/10) * (md.best_ask - md.best_bid))
    (ht1 : target + (2/10) * (md.best_ask - md.best_bid) ≤ 1) :
    ∀ (side : OrderSide) (t : ℚ) (r : PricingResult) (p : ℚ),
      calculate_optimal_price target side md t = .ok r →
      r.price = some p → 0 ≤ p ∧ p ≤ 1 := by
  intro side t r p hok hp
  have hr : r = pricing_decision target side md t := calculate_ok_inv hok
  subst hr
  exact pricing_decision_price_bounds md target hba hb0 ha1 ht0 ht1
    side t p hp

theorem claim8_witness :
    (0 : ℚ) ≤ 989/2000 ∧ (989/2000 : ℚ) ≤ 1 :=
  claim8_limit_price_in_unit_range_amended mdNormal (1/2)
    (by norm_num [mdNormal]) (by norm_num [mdNormal])
    (by norm_num [mdNormal]) (by norm_num [mdNormal])
    (by norm_num [mdNormal]) .SELL 25
    ⟨some (989/2000), .LIMIT, .high⟩ (989/2000)
    (by with_unfolding_all rfl) rfl

/-- C8 counterexample: in the wide regime with bid 0.01, ask 0.50, a
SELL order at 13h is priced at bid - 0.1·spread = -0.039 < 0, the
pricing call returns that limit decision, and the adjustment step
stores exactly that negative price in the row's current_price. -/
theorem claim8_price_range_cex :
    calculate_optimal_price (3/10) .SELL ⟨1/100, 1/2, some 3⟩ 13
      = .ok ⟨some (-(39/1000)), .LIMIT, .high⟩ ∧
    (adjust_order_price sampleOrder ⟨1/100, 1/2, some 3⟩ 13 14
        (some "n3")).1.current_price = some (-(39/1000)) ∧
    ¬ (0 : ℚ) ≤ -(39/1000) :=
  ⟨by with_unfolding_all rfl, by with_unfolding_all rfl, by norm_num⟩

end CopyTrading
